import Mathlib

/-!
Shallow embedding of the deebo-prototype sandbox executor and MCP tool
registry, written from the TypeScript sources:

* `src/util/nix-sandbox.ts` (class `NixSandboxExecutor`): `executeSandboxed`,
  `executeGitSandboxed`, `executeToolSandboxed`, the fallback methods, and the
  per-language helpers `getBuildInputsForLanguage` / `getExecutionForLanguage`.
* `src/util/extended-mcp.ts`: `connectExtendedMcpServer`,
  `createExtendedMcpConnection` and the connection cache.
* `src/util/mcp-integration.ts`: `connectAllMcpTools`, `parseExtendedToolCalls`.

Effects are made explicit: the outcome of `child_process.exec` (the
`nix-build` invocation), the content read back from the sandbox log and
exit-code files, and the outcome of a transport `connect` call are passed as
parameters, so every function is a pure, executable Lean definition whose
branching mirrors the TypeScript line by line.
-/

namespace Deebo

/-- A JavaScript number as it can appear in the `exitCode` field: either an
actual integer or `NaN` (which `parseInt` produces on unparseable input in
`executeToolSandboxed`). -/
inductive JSNum where
  | num (n : Int)
  | nan
deriving DecidableEq, Repr

/-- JavaScript `x || d` for a possibly-absent number `x`: `null`, `undefined`
and `0` are falsy, every other number is kept. Used for `error.code || 1` and
`config.timeout || 30000` in `nix-sandbox.ts`. -/
def jsOrInt (x : Option Int) (d : Int) : Int :=
  match x with
  | some n => if n = 0 then d else n
  | none => d

/-- JavaScript truthiness of an optional boolean field such as
`serverConfig.disabled` (`undefined` and `false` are falsy). -/
def jsTruthy (x : Option Bool) : Bool :=
  x.getD false

/-- `path.join` on relative segments, as used for the session directories. -/
def joinPath (ps : List String) : String :=
  String.intercalate "/" ps

/-- Interface `NixSandboxConfig` from `nix-sandbox.ts`. The `language` field
is kept as a plain string because the helpers switch on arbitrary strings with
a default branch. -/
structure NixSandboxConfig where
  name : String
  code : String
  language : Option String := none
  allowedPaths : Option (List String) := none
  env : Option (List (String × String)) := none
  timeout : Option Int := none
deriving DecidableEq, Repr

/-- Interface `NixSandboxResult` from `nix-sandbox.ts`. Its fields are exactly
`success`, `exitCode`, `stdout`, `stderr`, `logPath`, `resultPath`; the
interface has no `isolated` field. -/
structure NixSandboxResult where
  success : Bool
  exitCode : JSNum
  stdout : String
  stderr : String
  logPath : String
  resultPath : String
deriving DecidableEq, Repr

/-- Outcome of an awaited `execPromise(...)` call: resolution with captured
stdout/stderr, or rejection with the error's `code` (a number or `null`) and
`message`. A timeout makes `exec` reject, so a timeout is an `err` outcome. -/
inductive ExecOutcome where
  | ok (stdout : String) (stderr : String)
  | err (code : Option Int) (message : String)
deriving DecidableEq, Repr

/-- `fallbackExecution` from `nix-sandbox.ts`: the body ignores `config.code`
entirely and returns a fixed failure result. -/
def fallbackExecution (deeboRoot : String) (config : NixSandboxConfig) : NixSandboxResult :=
  let sessionDir := joinPath [deeboRoot, "memory-bank", "fallback", config.name]
  { success := false
    exitCode := .num 1
    stdout := ""
    stderr := "Nix sandbox not available"
    logPath := sessionDir
    resultPath := sessionDir }

/-- `fallbackGitExecution` from `nix-sandbox.ts`. -/
def fallbackGitExecution (repoPath : String) (_commands : List String) : NixSandboxResult :=
  { success := false
    exitCode := .num 1
    stdout := ""
    stderr := "Nix sandbox not available for Git operations"
    logPath := repoPath
    resultPath := repoPath }

/-- `fallbackToolExecution` from `nix-sandbox.ts`. -/
def fallbackToolExecution (_tool : String) (_args : List String)
    (_env : List (String × String)) : NixSandboxResult :=
  { success := false
    exitCode := .num 1
    stdout := ""
    stderr := "Nix sandbox not available for tool execution"
    logPath := ""
    resultPath := "" }

/-- `executeSandboxed` from `nix-sandbox.ts`. `build` is the outcome of the
awaited `nix-build` invocation; `logs` is `readSandboxLogs`, i.e. the content
of `<resultPath>/logs/execution.log` when readable (`readSandboxLogs` never
produces a `stderr` field, so the result's `stderr` on the success path is
`logContent.stderr || ''` = `''`). On the success path the function returns
`success: true, exitCode: 0` unconditionally; it never reads the
`results/exit_code` file that the generated Nix expression writes. -/
def executeSandboxed (deeboRoot : String) (isNixAvailable : Bool)
    (config : NixSandboxConfig) (build : ExecOutcome)
    (logs : String → Option String) : NixSandboxResult :=
  if !isNixAvailable then
    fallbackExecution deeboRoot config
  else
    let sessionDir := joinPath [deeboRoot, "memory-bank", "nix-sandbox", config.name]
    match build with
    | .ok stdout _ =>
      let resultPath := stdout.trim
      { success := true
        exitCode := .num 0
        stdout := (logs resultPath).getD ""
        stderr := ""
        logPath := joinPath [resultPath, "logs"]
        resultPath := resultPath }
    | .err code message =>
      { success := false
        exitCode := .num (jsOrInt code 1)
        stdout := ""
        stderr := message
        logPath := sessionDir
        resultPath := sessionDir }

/-- `executeGitSandboxed` from `nix-sandbox.ts`; `now` stands for the
`Date.now()` used in the session directory name. -/
def executeGitSandboxed (deeboRoot : String) (isNixAvailable : Bool)
    (repoPath : String) (commands : List String) (now : Int)
    (build : ExecOutcome) (logs : String → Option String) : NixSandboxResult :=
  if !isNixAvailable then
    fallbackGitExecution repoPath commands
  else
    let sessionDir := joinPath [deeboRoot, "memory-bank", "nix-sandbox", "git-" ++ toString now]
    match build with
    | .ok stdout _ =>
      let resultPath := stdout.trim
      { success := true
        exitCode := .num 0
        stdout := (logs resultPath).getD ""
        stderr := ""
        logPath := joinPath [resultPath, "logs"]
        resultPath := resultPath }
    | .err code message =>
      { success := false
        exitCode := .num (jsOrInt code 1)
        stdout := ""
        stderr := message
        logPath := sessionDir
        resultPath := sessionDir }

/-- `executeToolSandboxed` from `nix-sandbox.ts`. `exitFile` models
`parseInt(await readFile(exitCodeFile, 'utf8'))`: `none` when `readFile`
throws (the catch keeps the default `0`), `some v` with `v` the `parseInt`
result otherwise (`JSNum.nan` when the content does not parse). -/
def executeToolSandboxed (deeboRoot : String) (isNixAvailable : Bool)
    (tool : String) (args : List String) (env : List (String × String))
    (now : Int) (build : ExecOutcome) (logs : String → Option String)
    (exitFile : Option JSNum) : NixSandboxResult :=
  if !isNixAvailable then
    fallbackToolExecution tool args env
  else
    let sessionDir := joinPath [deeboRoot, "memory-bank", "nix-sandbox", "tool-" ++ toString now]
    match build with
    | .ok stdout _ =>
      let resultPath := stdout.trim
      let exitCode := exitFile.getD (.num 0)
      { success := decide (exitCode = JSNum.num 0)
        exitCode := exitCode
        stdout := (logs resultPath).getD ""
        stderr := ""
        logPath := joinPath [resultPath, "logs"]
        resultPath := resultPath }
    | .err code message =>
      { success := false
        exitCode := .num (jsOrInt code 1)
        stdout := ""
        stderr := message
        logPath := sessionDir
        resultPath := sessionDir }

/-- `getBuildInputsForLanguage` from `nix-sandbox.ts`: a switch with a default
branch; every string other than the three named cases (including `bash` and
every unknown language) gets the base shell tool set. -/
def getBuildInputsForLanguage (language : String) : List String :=
  match language with
  | "python" => ["bash", "coreutils", "python3"]
  | "nodejs" => ["bash", "coreutils", "nodejs"]
  | "typescript" => ["bash", "coreutils", "nodejs", "typescript"]
  | _ => ["bash", "coreutils", "findutils", "gnugrep", "gnused"]

/-- The single-quote character, written via its code point. -/
def sq : String := (Char.ofNat 39).toString

/-- The shell-escaping replacement used by `getExecutionForLanguage`:
`code.replace(/single-quote/g, quote-dquote-quote-dquote-quote)`. -/
def escapeCode (code : String) : String :=
  code.replace sq (sq ++ "\"" ++ sq ++ "\"" ++ sq)

/-- `getExecutionForLanguage` from `nix-sandbox.ts`: the shell snippet
embedded into the generated Nix expression; the default branch runs the code
as an executable shell script. -/
def getExecutionForLanguage (language : String) (code : String) : String :=
  let escapedCode := escapeCode code
  match language with
  | "python" =>
      "\n  echo " ++ sq ++ escapedCode ++ sq ++ " > script.py\n  python3 script.py 2>&1 | tee $out/logs/execution.log"
  | "nodejs" =>
      "\n  echo " ++ sq ++ escapedCode ++ sq ++ " > script.js\n  node script.js 2>&1 | tee $out/logs/execution.log"
  | "typescript" =>
      "\n  echo " ++ sq ++ escapedCode ++ sq ++ " > script.ts\n  npx tsc script.ts && node script.js 2>&1 | tee $out/logs/execution.log"
  | _ =>
      "\n  echo " ++ sq ++ escapedCode ++ sq ++ " > script.sh\n  chmod +x script.sh\n  ./script.sh 2>&1 | tee $out/logs/execution.log"

/-- An MCP client handle (`new Client(...)` in `extended-mcp.ts`); only its
identity matters to the registry logic, modelled by the `name` it was created
with, plus a tag distinguishing distinct handles in tests. -/
structure Client where
  name : String
  id : Nat := 0
deriving DecidableEq, Repr

/-- Interface `ExtendedMcpServerConfig` from `extended-mcp.ts`. -/
structure ExtendedMcpServerConfig where
  type : String
  command : Option String := none
  args : Option (List String) := none
  url : Option String := none
  tools : List String := []
  disabled : Option Bool := none
  timeout : Option Int := none
  env : Option (List (String × String)) := none
deriving DecidableEq, Repr

/-- The `mcpServers` record of `ExtendedMcpConfig` (from
`config/extended-mcp-servers.json`), as an association list. -/
structure ExtendedMcpConfig where
  mcpServers : List (String × ExtendedMcpServerConfig)
deriving DecidableEq, Repr

/-- Observable I/O steps of `createExtendedMcpConnection`, used to state that
a disabled server causes no transport creation and no connect call. -/
inductive ConnStep where
  | readConfigFile
  | newClient
  | stdioConnect (command : String) (args : List String)
  | sseConnect (url : String)
deriving DecidableEq, Repr

/-- JavaScript truthiness of `config.command` in `createStdioConnection`
(`undefined` and the empty string are falsy). -/
def jsTruthyStr (x : Option String) : Bool :=
  match x with
  | some s => !s.isEmpty
  | none => false

/-- The `arg.replace(/\x7brepoPath\x7d/g, repoPath)` substitution of
`createStdioConnection`. -/
def substRepoPath (repoPath arg : String) : String :=
  arg.replace "{repoPath}" repoPath

/-- `createExtendedMcpConnection` (plus the inlined `createStdioConnection` /
`createSSEConnection`) from `extended-mcp.ts`, with its I/O trace.
`npxPath` models `process.env.DEEBO_NPX_PATH`; `connectOutcome` is the result
of the awaited `client.connect(transport)` call. The first step is always the
config-file read; the function throws (returns `.error`) before creating any
client or transport when the server is missing or disabled. -/
def createExtendedMcpConnection (config : ExtendedMcpConfig)
    (name serverName repoPath : String) (npxPath : Option String)
    (connectOutcome : Except String Unit) :
    Except String Client × List ConnStep :=
  match config.mcpServers.lookup serverName with
  | none => (.error ("Server configuration not found: " ++ serverName), [.readConfigFile])
  | some sc =>
    if jsTruthy sc.disabled then
      (.error ("Server is disabled: " ++ serverName), [.readConfigFile])
    else
      let client : Client := { name := name }
      if sc.type = "local" then
        if jsTruthyStr sc.command = false ∨ sc.args = none then
          (.error "Local server requires command and args", [.readConfigFile, .newClient])
        else
          let cmd0 := sc.command.getD ""
          let cmd := if cmd0 = "npx" then npxPath.getD "npx" else cmd0
          let args := (sc.args.getD []).map (substRepoPath repoPath)
          match connectOutcome with
          | .ok _ => (.ok client, [.readConfigFile, .newClient, .stdioConnect cmd args])
          | .error e => (.error e, [.readConfigFile, .newClient, .stdioConnect cmd args])
      else if sc.type = "sse" then
        match sc.url with
        | none => (.error "SSE server requires URL", [.readConfigFile, .newClient])
        | some u =>
          match connectOutcome with
          | .ok _ => (.ok client, [.readConfigFile, .newClient, .sseConnect u])
          | .error e => (.error e, [.readConfigFile, .newClient, .sseConnect u])
      else
        (.error ("Unsupported server type: " ++ sc.type), [.readConfigFile, .newClient])

/-- The module-level `activeExtendedConnections` map of `extended-mcp.ts`,
keyed by the connection key string. A stored entry stands for the cached
(settled, successful) client promise. -/
abbrev ConnCache := List (String × Client)

/-- `connectExtendedMcpServer` from `extended-mcp.ts` as a state transformer
on the connection cache. `attempt` is the outcome `createExtendedMcpConnection`
would produce for this call. A cache hit returns the cached client without
running the attempt; on a fresh attempt the promise is stored under the key
and, on failure, deleted again before the error is rethrown (so the net cache
change of a failed attempt is nil). -/
def connectExtendedMcpServer (cache : ConnCache) (name sessionId : String)
    (attempt : Except String Client) : Except String Client × ConnCache :=
  let connectionKey := name ++ "-" ++ sessionId
  match cache.lookup connectionKey with
  | some c => (.ok c, cache)
  | none =>
    match attempt with
    | .ok c => (.ok c, (connectionKey, c) :: cache)
    | .error e => (.error e, cache)

/-- Return value of `connectAllMcpTools` from `mcp-integration.ts`. -/
structure AllTools where
  gitClient : Client
  filesystemClient : Client
  extendedClients : List (String × Client)
deriving DecidableEq, Repr

/-- `connectAllMcpTools` from `mcp-integration.ts`. `required` is the outcome
of `connectRequiredTools` (rethrown on failure); `config` the outcome of
`getExtendedMcpServers` (a failure is caught and leaves the extended map
empty); `connect` gives, per server name, the outcome of the awaited
`connectExtendedMcpServer` call. Disabled servers are skipped before any
connect call; a failed extended connection is logged and skipped. -/
def connectAllMcpTools (required : Except String (Client × Client))
    (config : Except String ExtendedMcpConfig)
    (connect : String → Except String Client) : Except String AllTools :=
  match required with
  | .error e => .error e
  | .ok (gitClient, filesystemClient) =>
    let extendedClients : List (String × Client) :=
      match config with
      | .error _ => []
      | .ok cfg =>
        cfg.mcpServers.foldl
          (fun acc p =>
            if jsTruthy p.2.disabled then acc
            else
              match connect p.1 with
              | .ok c => acc ++ [(p.1, c)]
              | .error _ => acc)
          []
    .ok { gitClient := gitClient, filesystemClient := filesystemClient,
          extendedClients := extendedClients }

/-- First-occurrence split: `splitFirst pat s = some (pre, post)` when
`s = pre ++ pat ++ post` with `pre` shortest; `none` when `pat` does not occur
in `s`. Used to model the JavaScript regex scans of `parseExtendedToolCalls`. -/
def splitFirst (pat : List Char) : List Char → Option (List Char × List Char)
  | [] => if pat.isEmpty then some ([], []) else none
  | c :: rest =>
    if pat.isPrefixOf (c :: rest) then
      some ([], (c :: rest).drop pat.length)
    else
      match splitFirst pat rest with
      | some (pre, post) => some (c :: pre, post)
      | none => none

/-- Boolean substring test built on `splitFirst`. -/
def containsSubstring (s pat : String) : Bool :=
  (splitFirst pat.toList s.toList).isSome

/-- One step of the global-flag regex scan for
`<use_mcp_tool>...</use_mcp_tool>` blocks: lazily matched content between the
first opening tag and the nearest closing tag after it, with the remainder of
the text. `fuel` bounds the iteration; each step consumes at least the two
tags, so the length of the text is always enough fuel. -/
def extractBlocksAux (fuel : Nat) (s : List Char) : List (List Char) :=
  match fuel with
  | 0 => []
  | fuel + 1 =>
    match splitFirst "<use_mcp_tool>".toList s with
    | none => []
    | some (_, rest) =>
      match splitFirst "</use_mcp_tool>".toList rest with
      | none => []
      | some (content, rest2) => content :: extractBlocksAux fuel rest2

/-- The `matchAll` scan of `parseExtendedToolCalls`. -/
def extractBlocks (s : List Char) : List (List Char) :=
  extractBlocksAux s.length s

/-- ASCII whitespace, for the `.trim()` applied to each matched block. -/
def isWs (c : Char) : Bool :=
  c = ' ' ∨ c = '\n' ∨ c = '\t' ∨ c = '\r'

/-- JavaScript `String.prototype.trim` on a character list. -/
def trimChars (s : List Char) : List Char :=
  ((s.dropWhile isWs).reverse.dropWhile isWs).reverse

/-- Content of the first `<tag>...</tag>` group inside a block, modelling the
lazy single-match regexes of `parseExtendedToolCalls` (first opening tag, then
the nearest closing tag after it). -/
def tagContent (tag : String) (block : List Char) : Option (List Char) :=
  match splitFirst ("<" ++ tag ++ ">").toList block with
  | none => none
  | some (_, rest) =>
    match splitFirst ("</" ++ tag ++ ">").toList rest with
    | none => none
    | some (content, _) => some content

/-- Which client a parsed tool call is dispatched to (`gitClient`,
`filesystemClient`, or an entry of the extended-clients map). -/
inductive ServerRef where
  | git
  | filesystem
  | extended (name : String)
deriving DecidableEq, Repr

/-- One element of the list returned by `parseExtendedToolCalls`: either a
well-formed `{server, tool, args}` call or the `{error}` object produced by
the per-block catch. `α` is the type of parsed JSON arguments. -/
inductive ToolCallEntry (α : Type) where
  | call (server : ServerRef) (tool : String) (args : α)
  | failure (message : String)
deriving DecidableEq, Repr

/-- The client-selection if-chain of `parseExtendedToolCalls`: `git-mcp` and
`desktop-commander` map to the two required clients, any other name is looked
up among the extended clients; `none` models the `server` variable staying
undefined, which triggers the unknown-server throw. -/
def resolveServer (extendedNames : List String) (serverName : String) : Option ServerRef :=
  if serverName = "git-mcp" then some .git
  else if serverName = "desktop-commander" then some .filesystem
  else if extendedNames.contains serverName then some (.extended serverName)
  else none

/-- The per-block body of `parseExtendedToolCalls` (the `try`/`catch` inside
the `map`): each `throw` becomes a `failure` entry. `jsonParse` models
`JSON.parse` (its failure message is the thrown error's message);
`extendedNames` the keys of the extended-clients map. A missing or empty
capture is falsy in the source's `!match || !match[1]` checks, so empty tag
content also yields the corresponding missing-field error. -/
def parseToolCall {α : Type} (jsonParse : String → Except String α)
    (extendedNames : List String) (block : List Char) : ToolCallEntry α :=
  match tagContent "server_name" block with
  | none => .failure "Missing server_name"
  | some sn =>
    if sn.isEmpty then .failure "Missing server_name"
    else
      let serverName : String := ⟨sn⟩
      match resolveServer extendedNames serverName with
      | none => .failure ("Unknown or unavailable server: " ++ serverName)
      | some server =>
        match tagContent "tool_name" block with
        | none => .failure "Missing tool_name"
        | some tn =>
          if tn.isEmpty then .failure "Missing tool_name"
          else
            match tagContent "arguments" block with
            | none => .failure "Missing arguments"
            | some argStr =>
              if argStr.isEmpty then .failure "Missing arguments"
              else
                match jsonParse ⟨argStr⟩ with
                | .error e => .failure e
                | .ok args => .call server ⟨tn⟩ args

/-- `parseExtendedToolCalls` from `mcp-integration.ts`: extract every
`<use_mcp_tool>` block, trim it, and map each through the guarded per-block
parser; no branch escapes the per-block catch, so the function is total and
returns one entry per block. -/
def parseExtendedToolCalls {α : Type} (jsonParse : String → Except String α)
    (extendedNames : List String) (responseText : String) : List (ToolCallEntry α) :=
  (extractBlocks responseText.toList).map
    (fun b => parseToolCall jsonParse extendedNames (trimChars b))

/-- Outcome a direct (non-isolated) process execution of a config's code
would have: exit status and captured output. Used only to state the spec's
claim about the fallback path. -/
structure DirectRun where
  exitCode : Int
  stdout : String
  stderr : String
deriving DecidableEq, Repr

/-- Claim C1 as stated: with Nix unavailable, `executeSandboxed` still runs
the requested code via direct process execution, so its result reflects the
direct run's outcome, whatever that outcome is. -/
def fallbackExecutesDirectly : Prop :=
  ∀ (deeboRoot : String) (config : NixSandboxConfig) (build : ExecOutcome)
    (logs : String → Option String) (run : DirectRun),
    (executeSandboxed deeboRoot false config build logs).exitCode = JSNum.num run.exitCode ∧
    (executeSandboxed deeboRoot false config build logs).stdout = run.stdout

/-- Claim C2 as stated, for `executeSandboxed`: when the executor itself works
and the executed code exits with `recorded ≠ 0`, the result is
`success = false, exitCode = recorded`. The build outcome is `.ok` because the
generated builder pipes the script through `tee` (the recorded status is
written to `results/exit_code`, which `executeSandboxed` never reads), so a
failing script still leaves `nix-build` successful. -/
def executeSandboxedReportsCodeExit : Prop :=
  ∀ (deeboRoot : String) (config : NixSandboxConfig) (stdout stderr : String)
    (logs : String → Option String) (recorded : Int), recorded ≠ 0 →
    (executeSandboxed deeboRoot true config (.ok stdout stderr) logs).success = false ∧
    (executeSandboxed deeboRoot true config (.ok stdout stderr) logs).exitCode = JSNum.num recorded

/-- Claim C3 as stated (message part): on a timeout the `exec` promise
rejects, and the result's `stderr` records `"timeout exceeded"` — whatever
message the runtime's rejection carries. -/
def timeoutRecordsTimeoutExceeded : Prop :=
  ∀ (deeboRoot : String) (config : NixSandboxConfig) (code : Option Int)
    (message : String) (logs : String → Option String),
    containsSubstring (executeSandboxed deeboRoot true config (.err code message) logs).stderr
      "timeout exceeded" = true

/-- How the executor handles a language: either reject it, or build and run it
with the given build inputs and shell snippet. -/
inductive LanguagePlan where
  | rejected
  | planned (buildInputs : List String) (execution : String)
deriving DecidableEq, Repr

/-- The executor's actual language handling: `generateNixExpression` always
produces an expression from `getBuildInputsForLanguage` and
`getExecutionForLanguage`, both total switches with a default branch — the
source has no rejection path for any language string. -/
def languagePlan (language code : String) : LanguagePlan :=
  .planned (getBuildInputsForLanguage language) (getExecutionForLanguage language code)

/-- Claim C4 as stated: a language outside the known set is rejected instead
of being run under some default language. -/
def unknownLanguageRejected : Prop :=
  ∀ language code : String, language ∉ (["bash", "python", "nodejs", "typescript"] : List String) →
    languagePlan language code = LanguagePlan.rejected

/-- Claim C5 as stated (exit-code part): every true executor failure —
a rejected `nix-build` invocation, which covers engine crashes and timeouts —
yields `exitCode = -1`. -/
def executorFailureExitCodeMinusOne : Prop :=
  ∀ (deeboRoot : String) (config : NixSandboxConfig) (code : Option Int)
    (message : String) (logs : String → Option String),
    (executeSandboxed deeboRoot true config (.err code message) logs).exitCode = JSNum.num (-1)

end Deebo

namespace Deebo

theorem jsOrInt_one_ne_zero (c : Option Int) : jsOrInt c 1 ≠ 0 := by
  cases c with
  | none => simp [jsOrInt]
  | some n =>
    by_cases hn : n = 0 <;> simp [jsOrInt, hn]

/-- C1 counterexample: the fallback taken when Nix is unavailable does not
perform direct process execution. At a config whose direct run would exit 0
with output "hello", `executeSandboxed` with `isNixAvailable = false` returns
exit code 1 and empty output — the constant `fallbackExecution` result — so
the claimed behaviour is false. -/
theorem fallback_not_direct_execution : ¬ fallbackExecutesDirectly := by
  intro h
  have h0 := (h "/deebo" { name := "probe", code := "exit 0" } (.ok "" "")
    (fun _ => none) { exitCode := 0, stdout := "hello", stderr := "" }).1
  simp [executeSandboxed, fallbackExecution] at h0

/-- C1 (amended): when Nix is unavailable, `executeSandboxed` does not run the
requested code at all; it returns a constant failure result with
`success = false`, `exitCode = 1`, empty stdout and
`stderr = "Nix sandbox not available"`, independent of the config's code, and
`NixSandboxResult` carries no `isolated` flag that could mark it lower-trust. -/
theorem fallback_returns_constant_failure :
    ∀ (deeboRoot : String) (config : NixSandboxConfig) (build : ExecOutcome)
      (logs : String → Option String),
      executeSandboxed deeboRoot false config build logs = fallbackExecution deeboRoot config ∧
      fallbackExecution deeboRoot config =
        { success := false
          exitCode := .num 1
          stdout := ""
          stderr := "Nix sandbox not available"
          logPath := joinPath [deeboRoot, "memory-bank", "fallback", config.name]
          resultPath := joinPath [deeboRoot, "memory-bank", "fallback", config.name] } := by
  intro deeboRoot config build logs
  exact ⟨rfl, rfl⟩

/-- C2 counterexample: `executeSandboxed` never consults the executed code's
exit status. With the code's recorded exit status 2 and a successful
`nix-build` (the generated builder's `tee` pipeline masks the script's
failure), the result is `success = true, exitCode = 0`, so the claim is false. -/
theorem executeSandboxed_ignores_code_exit : ¬ executeSandboxedReportsCodeExit := by
  intro h
  have h0 := (h "/deebo" { name := "probe", code := "exit 2" } "/nix/store/abc-probe" ""
    (fun _ => none) 2 (by decide)).1
  simp [executeSandboxed] at h0

/-- C2 (amended): `executeSandboxed` returns `success = true, exitCode = 0`
whenever the `nix-build` invocation succeeds, regardless of the executed
code's exit status; only `executeToolSandboxed` propagates a recorded exit
status `n` from the `results/exit_code` file, as
`success = (n = 0), exitCode = n`. -/
theorem exit_code_reporting_amended :
    (∀ (deeboRoot : String) (config : NixSandboxConfig) (stdout stderr : String)
       (logs : String → Option String),
       (executeSandboxed deeboRoot true config (.ok stdout stderr) logs).success = true ∧
       (executeSandboxed deeboRoot true config (.ok stdout stderr) logs).exitCode = JSNum.num 0) ∧
    (∀ (deeboRoot tool : String) (args : List String) (env : List (String × String))
       (now : Int) (stdout stderr : String) (logs : String → Option String) (n : Int),
       (executeToolSandboxed deeboRoot true tool args env now (.ok stdout stderr) logs
          (some (.num n))).success = decide (n = 0) ∧
       (executeToolSandboxed deeboRoot true tool args env now (.ok stdout stderr) logs
          (some (.num n))).exitCode = JSNum.num n) := by
  constructor
  · intro deeboRoot config stdout stderr logs
    exact ⟨rfl, rfl⟩
  · intro deeboRoot tool args env now stdout stderr logs n
    refine ⟨?_, rfl⟩
    simp [executeToolSandboxed]

/-- C3 counterexample: the executor copies the rejection's message into
`stderr` unchanged and never adds a timeout marker. With the runtime's actual
rejection message format for a timed-out `exec` call
("Command failed: ..."), `stderr` does not record "timeout exceeded", so the
claim is false. -/
theorem timeout_message_not_recorded : ¬ timeoutRecordsTimeoutExceeded := by
  intro h
  have h0 := h "/deebo" { name := "probe", code := "sleep 60" } none
    "Command failed: nix-build execution.nix --no-out-link --option sandbox true"
    (fun _ => none)
  simp [executeSandboxed] at h0
  exact absurd h0 (by decide)

/-- C3 (amended): when the `exec` invocation rejects — which is what a timeout
causes — `executeSandboxed` returns `success = false`, passes the rejection's
message through as `stderr` verbatim (it adds no "timeout exceeded" text of
its own), and sets `exitCode` to the error's `code` when that is a non-zero
number and to 1 otherwise. -/
theorem exec_rejection_result :
    ∀ (deeboRoot : String) (config : NixSandboxConfig) (code : Option Int)
      (message : String) (logs : String → Option String),
      (executeSandboxed deeboRoot true config (.err code message) logs).success = false ∧
      (executeSandboxed deeboRoot true config (.err code message) logs).stderr = message ∧
      (executeSandboxed deeboRoot true config (.err code message) logs).exitCode =
        JSNum.num (jsOrInt code 1) := by
  intro deeboRoot config code message logs
  exact ⟨rfl, rfl, rfl⟩

/-- C4 counterexample: the unknown language "ruby" is not rejected — the
executor plans a build and a run for it (under the default shell treatment),
so the claim is false. -/
theorem unknown_language_not_rejected : ¬ unknownLanguageRejected := by
  intro h
  have h0 := h "ruby" "puts 1" (by decide)
  simp only [languagePlan] at h0
  exact LanguagePlan.noConfusion h0

/-- C4 (amended): there is no `UnsupportedLanguage` error anywhere in the
executor. Every language other than "python", "nodejs" and "typescript" —
including every unknown string — takes the default switch branch and is run
exactly as the default shell language, with the base shell build inputs. -/
theorem unknown_language_runs_as_shell :
    ∀ language : String, language ∉ (["python", "nodejs", "typescript"] : List String) →
      getBuildInputsForLanguage language = ["bash", "coreutils", "findutils", "gnugrep", "gnused"] ∧
      ∀ code : String, getExecutionForLanguage language code = getExecutionForLanguage "bash" code := by
  intro language h
  have h1 : language ≠ "python" := fun e => h (by simp [e])
  have h2 : language ≠ "nodejs" := fun e => h (by simp [e])
  have h3 : language ≠ "typescript" := fun e => h (by simp [e])
  constructor
  · unfold getBuildInputsForLanguage
    split
    · exact absurd rfl h1
    · exact absurd rfl h2
    · exact absurd rfl h3
    · rfl
  · intro code
    unfold getExecutionForLanguage
    split
    · exact absurd rfl h1
    · exact absurd rfl h2
    · exact absurd rfl h3
    · rfl

/-- C4 witness: the amended statement evaluated at the concrete unknown
language "ruby". -/
theorem unknown_language_runs_as_shell_witness :
    getBuildInputsForLanguage "ruby" = ["bash", "coreutils", "findutils", "gnugrep", "gnused"] ∧
    getExecutionForLanguage "ruby" "echo hi" = getExecutionForLanguage "bash" "echo hi" :=
  ⟨(unknown_language_runs_as_shell "ruby" (by decide)).1,
   (unknown_language_runs_as_shell "ruby" (by decide)).2 "echo hi"⟩

/-- C5 counterexample: a rejected `nix-build` invocation whose error carries
no numeric code (as on a timeout kill) yields `exitCode = 1`, not `-1`, so the
claim is false. -/
theorem executor_failure_not_minus_one : ¬ executorFailureExitCodeMinusOne := by
  intro h
  have h0 := h "/deebo" { name := "probe", code := "echo hi" } none
    "Command failed: nix-build execution.nix --no-out-link --option sandbox true"
    (fun _ => none)
  simp [executeSandboxed, jsOrInt] at h0

/-- C5 (amended): a true executor failure caught by the executor (a rejected
`nix-build` invocation, covering engine crashes and timeouts) produces
`success = false`, the error's message as `stderr`, and
`exitCode = error.code` when that is a non-zero number, 1 otherwise — never
`-1`; this holds for `executeSandboxed` and `executeToolSandboxed` alike.
(A working-directory creation failure is outside the `try` block and
propagates as an exception instead of producing any result.) -/
theorem executor_failure_result_shape :
    ∀ (deeboRoot : String) (config : NixSandboxConfig) (code : Option Int)
      (message : String) (logs : String → Option String) (tool : String)
      (args : List String) (env : List (String × String)) (now : Int)
      (exitFile : Option JSNum),
      executeSandboxed deeboRoot true config (.err code message) logs =
        { success := false
          exitCode := .num (jsOrInt code 1)
          stdout := ""
          stderr := message
          logPath := joinPath [deeboRoot, "memory-bank", "nix-sandbox", config.name]
          resultPath := joinPath [deeboRoot, "memory-bank", "nix-sandbox", config.name] } ∧
      executeToolSandboxed deeboRoot true tool args env now (.err code message) logs exitFile =
        { success := false
          exitCode := .num (jsOrInt code 1)
          stdout := ""
          stderr := message
          logPath := joinPath [deeboRoot, "memory-bank", "nix-sandbox", "tool-" ++ toString now]
          resultPath := joinPath [deeboRoot, "memory-bank", "nix-sandbox", "tool-" ++ toString now] } ∧
      jsOrInt code 1 ≠ 0 := by
  intro deeboRoot config code message logs tool args env now exitFile
  exact ⟨rfl, rfl, jsOrInt_one_ne_zero code⟩

/-- C10: every `NixSandboxResult` produced by `executeSandboxed`,
`executeGitSandboxed` or `executeToolSandboxed` — on the Nix path, the error
path and the fallback path alike — satisfies `success = true` exactly when
`exitCode = 0`. -/
theorem result_success_iff_exit_zero :
    (∀ (deeboRoot : String) (isNixAvailable : Bool) (config : NixSandboxConfig)
       (build : ExecOutcome) (logs : String → Option String),
       (executeSandboxed deeboRoot isNixAvailable config build logs).success = true ↔
       (executeSandboxed deeboRoot isNixAvailable config build logs).exitCode = JSNum.num 0) ∧
    (∀ (deeboRoot : String) (isNixAvailable : Bool) (repoPath : String)
       (commands : List String) (now : Int) (build : ExecOutcome)
       (logs : String → Option String),
       (executeGitSandboxed deeboRoot isNixAvailable repoPath commands now build logs).success = true ↔
       (executeGitSandboxed deeboRoot isNixAvailable repoPath commands now build logs).exitCode = JSNum.num 0) ∧
    (∀ (deeboRoot : String) (isNixAvailable : Bool) (tool : String)
       (args : List String) (env : List (String × String)) (now : Int)
       (build : ExecOutcome) (logs : String → Option String) (exitFile : Option JSNum),
       (executeToolSandboxed deeboRoot isNixAvailable tool args env now build logs exitFile).success = true ↔
       (executeToolSandboxed deeboRoot isNixAvailable tool args env now build logs exitFile).exitCode = JSNum.num 0) := by
  refine ⟨?_, ?_, ?_⟩
  · intro deeboRoot avail config build logs
    cases avail with
    | false => simp [executeSandboxed, fallbackExecution]
    | true =>
      cases build with
      | ok s e => simp [executeSandboxed]
      | err c m => simp [executeSandboxed, jsOrInt_one_ne_zero c]
  · intro deeboRoot avail repoPath commands now build logs
    cases avail with
    | false => simp [executeGitSandboxed, fallbackGitExecution]
    | true =>
      cases build with
      | ok s e => simp [executeGitSandboxed]
      | err c m => simp [executeGitSandboxed, jsOrInt_one_ne_zero c]
  · intro deeboRoot avail tool args env now build logs exitFile
    cases avail with
    | false => simp [executeToolSandboxed, fallbackToolExecution]
    | true =>
      cases build with
      | ok s e => simp [executeToolSandboxed]
      | err c m => simp [executeToolSandboxed, jsOrInt_one_ne_zero c]

theorem extended_foldl_eq (connect : String → Except String Client)
    (l : List (String × ExtendedMcpServerConfig)) (acc : List (String × Client)) :
    l.foldl
      (fun acc p =>
        if jsTruthy p.2.disabled then acc
        else
          match connect p.1 with
          | .ok c => acc ++ [(p.1, c)]
          | .error _ => acc)
      acc =
    acc ++ l.filterMap
      (fun p =>
        if jsTruthy p.2.disabled then none
        else
          match connect p.1 with
          | .ok c => some (p.1, c)
          | .error _ => none) := by
  induction l generalizing acc with
  | nil => simp
  | cons p t ih =>
    by_cases hd : jsTruthy p.2.disabled
    · simp [hd, ih]
    · cases hc : connect p.1 with
      | ok c => simp [hd, hc, ih]
      | error e => simp [hd, hc, ih]

theorem connectAllMcpTools_extendedClients (git fs : Client) (cfg : ExtendedMcpConfig)
    (connect : String → Except String Client) :
    connectAllMcpTools (.ok (git, fs)) (.ok cfg) connect =
      .ok { gitClient := git
            filesystemClient := fs
            extendedClients :=
              cfg.mcpServers.filterMap
                (fun p =>
                  if jsTruthy p.2.disabled then none
                  else
                    match connect p.1 with
                    | .ok c => some (p.1, c)
                    | .error _ => none) } := by
  simp only [connectAllMcpTools]
  rw [extended_foldl_eq]
  simp

/-- C6: a server whose configuration entry is marked disabled fails
`createExtendedMcpConnection` immediately with the disabled error, with the
config-file read as the only observed step — no client, no transport and no
connect call; the cached entry point `connectExtendedMcpServer` surfaces the
same error on a cache miss without caching anything; and `connectAllMcpTools`
never consults the connect outcome of the disabled server (its result is
invariant under changing that outcome) and never lists it among the connected
extended clients. -/
theorem disabled_server_connect_fails_immediately
    (cfg : ExtendedMcpConfig) (d : String) (sc : ExtendedMcpServerConfig)
    (h1 : cfg.mcpServers.lookup d = some sc)
    (h2 : jsTruthy sc.disabled = true)
    (h3 : ∀ sc', (d, sc') ∈ cfg.mcpServers → jsTruthy sc'.disabled = true) :
    (∀ (name repoPath : String) (npxPath : Option String) (outcome : Except String Unit),
       createExtendedMcpConnection cfg name d repoPath npxPath outcome =
         (.error ("Server is disabled: " ++ d), [ConnStep.readConfigFile])) ∧
    (∀ (cache : ConnCache) (name sessionId repoPath : String) (npxPath : Option String)
       (outcome : Except String Unit),
       cache.lookup (name ++ "-" ++ sessionId) = none →
       connectExtendedMcpServer cache name sessionId
         (createExtendedMcpConnection cfg name d repoPath npxPath outcome).1 =
         (.error ("Server is disabled: " ++ d), cache)) ∧
    (∀ (git fs : Client) (connect1 connect2 : String → Except String Client),
       (∀ s, s ≠ d → connect1 s = connect2 s) →
       connectAllMcpTools (.ok (git, fs)) (.ok cfg) connect1 =
         connectAllMcpTools (.ok (git, fs)) (.ok cfg) connect2) ∧
    (∀ (git fs : Client) (connect : String → Except String Client) (r : AllTools),
       connectAllMcpTools (.ok (git, fs)) (.ok cfg) connect = .ok r →
       ∀ c : Client, (d, c) ∉ r.extendedClients) := by
  have ha : ∀ (name repoPath : String) (npxPath : Option String) (outcome : Except String Unit),
      createExtendedMcpConnection cfg name d repoPath npxPath outcome =
        (.error ("Server is disabled: " ++ d), [ConnStep.readConfigFile]) := by
    intro name repoPath npxPath outcome
    simp [createExtendedMcpConnection, h1, h2]
  refine ⟨ha, ?_, ?_, ?_⟩
  · intro cache name sessionId repoPath npxPath outcome hnone
    rw [ha]
    simp [connectExtendedMcpServer, hnone]
  · intro git fs connect1 connect2 hagree
    rw [connectAllMcpTools_extendedClients, connectAllMcpTools_extendedClients]
    have heq : cfg.mcpServers.filterMap
        (fun p =>
          if jsTruthy p.2.disabled then none
          else
            match connect1 p.1 with
            | .ok c => some (p.1, c)
            | .error _ => none) =
      cfg.mcpServers.filterMap
        (fun p =>
          if jsTruthy p.2.disabled then none
          else
            match connect2 p.1 with
            | .ok c => some (p.1, c)
            | .error _ => none) := by
      apply List.filterMap_congr
      intro p hp
      by_cases hpd : p.1 = d
      · have hdis : jsTruthy p.2.disabled = true := by
          apply h3
          have : (d, p.2) = p := Prod.ext hpd.symm rfl
          rw [this]
          exact hp
        simp [hdis]
      · rw [hagree p.1 hpd]
    rw [heq]
  · intro git fs connect r hr c hmem
    rw [connectAllMcpTools_extendedClients] at hr
    rw [Except.ok.injEq] at hr
    subst hr
    simp only [List.mem_filterMap] at hmem
    obtain ⟨p, hp, hsome⟩ := hmem
    by_cases hd : jsTruthy p.2.disabled
    · simp [hd] at hsome
    · cases hc : connect p.1 with
      | ok c' =>
        simp [hd, hc] at hsome
        have hdis : jsTruthy p.2.disabled = true := by
          apply h3
          have : (d, p.2) = p := Prod.ext hsome.1.symm rfl
          rw [this]
          exact hp
        exact absurd hdis (by simp [hd])
      | error e => simp [hd, hc] at hsome

/-- C6 witness: the amended statement evaluated on a concrete configuration
with one enabled and one disabled server. -/
theorem disabled_server_connect_fails_immediately_witness :
    createExtendedMcpConnection
        ⟨[("playwright", { type := "local", command := some "npx", args := some ["-y", "pw"] }),
          ("disabled-tool", { type := "sse", url := some "http://x", disabled := some true })]⟩
        "mother-disabled-tool" "disabled-tool" "/repo" none (.ok ()) =
      (.error "Server is disabled: disabled-tool", [ConnStep.readConfigFile]) ∧
    connectExtendedMcpServer [] "mother-disabled-tool" "s1"
        (createExtendedMcpConnection
          ⟨[("playwright", { type := "local", command := some "npx", args := some ["-y", "pw"] }),
            ("disabled-tool", { type := "sse", url := some "http://x", disabled := some true })]⟩
          "mother-disabled-tool" "disabled-tool" "/repo" none (.ok ())).1 =
      (.error "Server is disabled: disabled-tool", []) := by
  have h := disabled_server_connect_fails_immediately
    ⟨[("playwright", { type := "local", command := some "npx", args := some ["-y", "pw"] }),
      ("disabled-tool", { type := "sse", url := some "http://x", disabled := some true })]⟩
    "disabled-tool" { type := "sse", url := some "http://x", disabled := some true }
    (by decide) (by decide)
    (by intro sc' hm; simp at hm; subst hm; rfl)
  exact ⟨h.1 "mother-disabled-tool" "/repo" none (.ok ()),
         h.2.1 [] "mother-disabled-tool" "s1" "/repo" none (.ok ()) (by decide)⟩

/-- C7: the connection cache makes `connectExtendedMcpServer` idempotent per
(toolName, sessionId) pair — once a call has returned a client, every later
call with the same pair returns that same client and leaves the cache
unchanged, regardless of what a fresh connection attempt would do — and a
failed attempt leaves no entry in the cache. -/
theorem connect_cached_idempotent
    (cache : ConnCache) (name sessionId : String) (attempt : Except String Client)
    (c : Client) (cache1 : ConnCache)
    (h : connectExtendedMcpServer cache name sessionId attempt = (.ok c, cache1)) :
    (∀ attempt2 : Except String Client,
       connectExtendedMcpServer cache1 name sessionId attempt2 = (.ok c, cache1)) ∧
    (∀ e : String, cache.lookup (name ++ "-" ++ sessionId) = none →
       connectExtendedMcpServer cache name sessionId (.error e) = (.error e, cache)) := by
  constructor
  · intro attempt2
    cases hl : cache.lookup (name ++ "-" ++ sessionId) with
    | some c0 =>
      simp only [connectExtendedMcpServer, hl] at h
      rw [Prod.mk.injEq] at h
      obtain ⟨hc, hcache⟩ := h
      rw [Except.ok.injEq] at hc
      subst hcache
      simp [connectExtendedMcpServer, hl, hc]
    | none =>
      simp only [connectExtendedMcpServer, hl] at h
      cases attempt with
      | ok c1 =>
        simp only at h
        rw [Prod.mk.injEq] at h
        obtain ⟨hc, hcache⟩ := h
        rw [Except.ok.injEq] at hc
        subst hc
        subst hcache
        simp [connectExtendedMcpServer, List.lookup]
      | error e =>
        simp at h
  · intro e hnone
    simp [connectExtendedMcpServer, hnone]

/-- C7 witness: a concrete first successful connect, a second connect for the
same pair returning the cached client even though a fresh attempt would now
fail, and a failed attempt leaving the cache empty. -/
theorem connect_cached_idempotent_witness :
    connectExtendedMcpServer [("mother-playwright-s1", { name := "mother-playwright" })]
        "mother-playwright" "s1" (.error "down") =
      (.ok { name := "mother-playwright" }, [("mother-playwright-s1", { name := "mother-playwright" })]) ∧
    connectExtendedMcpServer [] "mother-playwright" "s1" (.error "down") =
      (.error "down", []) := by
  have h := connect_cached_idempotent [] "mother-playwright" "s1"
    (.ok { name := "mother-playwright" }) { name := "mother-playwright" }
    [("mother-playwright-s1", { name := "mother-playwright" })] (by rfl)
  exact ⟨h.1 (.error "down"), h.2 "down" (by decide)⟩

/-- C8: a failing extended server never fails the registry globally:
`connectAllMcpTools` still returns a result carrying the git client, the
filesystem client, and a connection for every other enabled server whose
connect succeeded, and the failing server simply does not appear among the
extended clients. -/
theorem one_failed_server_does_not_fail_registry
    (git fs : Client) (cfg : ExtendedMcpConfig) (connect : String → Except String Client)
    (f e : String) (hf : connect f = .error e) :
    ∃ r : AllTools,
      connectAllMcpTools (.ok (git, fs)) (.ok cfg) connect = .ok r ∧
      r.gitClient = git ∧ r.filesystemClient = fs ∧
      (∀ p ∈ cfg.mcpServers, jsTruthy p.2.disabled = false →
        ∀ c : Client, connect p.1 = .ok c → (p.1, c) ∈ r.extendedClients) ∧
      (∀ c : Client, (f, c) ∉ r.extendedClients) := by
  refine ⟨_, connectAllMcpTools_extendedClients git fs cfg connect, rfl, rfl, ?_, ?_⟩
  · intro p hp hpd c hc
    simp only [List.mem_filterMap]
    exact ⟨p, hp, by simp [hpd, hc]⟩
  · intro c hmem
    simp only [List.mem_filterMap] at hmem
    obtain ⟨p, hp, hsome⟩ := hmem
    by_cases hd : jsTruthy p.2.disabled
    · simp [hd] at hsome
    · cases hc : connect p.1 with
      | ok c' =>
        simp [hd, hc] at hsome
        rw [hsome.1] at hc
        rw [hf] at hc
        exact Except.noConfusion hc
      | error e' => simp [hd, hc] at hsome

/-- C8 witness: with the server "b" unreachable, the registry still returns
the git and filesystem clients and the connection to the reachable server
"a", and "b" is absent from the extended clients. -/
theorem one_failed_server_does_not_fail_registry_witness :
    ∃ r : AllTools,
      connectAllMcpTools (.ok ({ name := "git" }, { name := "fs" }))
          (.ok ⟨[("a", { type := "local", command := some "x", args := some [] }),
                 ("b", { type := "sse", url := some "http://b" })]⟩)
          (fun s => if s = "b" then .error "unreachable" else .ok { name := s }) = .ok r ∧
      r.gitClient = { name := "git" } ∧ r.filesystemClient = { name := "fs" } ∧
      ("a", { name := "a" : Client }) ∈ r.extendedClients ∧
      (∀ c : Client, ("b", c) ∉ r.extendedClients) := by
  have h := one_failed_server_does_not_fail_registry
    { name := "git" } { name := "fs" }
    ⟨[("a", { type := "local", command := some "x", args := some [] }),
      ("b", { type := "sse", url := some "http://b" })]⟩
    (fun s => if s = "b" then .error "unreachable" else .ok { name := s })
    "b" "unreachable" (by rfl)
  obtain ⟨r, hr, hg, hfs, hmem, hnot⟩ := h
  refine ⟨r, hr, hg, hfs, ?_, hnot⟩
  exact hmem ("a", { type := "local", command := some "x", args := some [] })
    (by decide) (by decide) { name := "a" } (by rfl)

/-- C9: `parseExtendedToolCalls` is total — it returns exactly one entry per
`<use_mcp_tool>` block, each produced by the guarded per-block parser — and
every malformed block becomes a `failure` entry with the thrown message
instead of an exception: a missing or empty `server_name`, an unknown or
unavailable server, a missing or empty `tool_name` or `arguments`, and
unparseable JSON arguments each map to their specific error message. -/
theorem parse_tool_calls_malformed_to_error {α : Type}
    (jsonParse : String → Except String α) (extendedNames : List String) :
    (∀ responseText : String,
       parseExtendedToolCalls jsonParse extendedNames responseText =
         (extractBlocks responseText.toList).map
           (fun b => parseToolCall jsonParse extendedNames (trimChars b)) ∧
       (parseExtendedToolCalls jsonParse extendedNames responseText).length =
         (extractBlocks responseText.toList).length) ∧
    (∀ block : List Char,
       (tagContent "server_name" block = none ∨ tagContent "server_name" block = some [] →
          parseToolCall jsonParse extendedNames block = .failure "Missing server_name") ∧
       (∀ sn : List Char, tagContent "server_name" block = some sn → sn ≠ [] →
          resolveServer extendedNames (String.mk sn) = none →
          parseToolCall jsonParse extendedNames block =
            .failure ("Unknown or unavailable server: " ++ String.mk sn)) ∧
       (∀ (sn : List Char) (s : ServerRef), tagContent "server_name" block = some sn → sn ≠ [] →
          resolveServer extendedNames (String.mk sn) = some s →
          (tagContent "tool_name" block = none ∨ tagContent "tool_name" block = some []) →
          parseToolCall jsonParse extendedNames block = .failure "Missing tool_name") ∧
       (∀ (sn tn : List Char) (s : ServerRef), tagContent "server_name" block = some sn → sn ≠ [] →
          resolveServer extendedNames (String.mk sn) = some s →
          tagContent "tool_name" block = some tn → tn ≠ [] →
          (tagContent "arguments" block = none ∨ tagContent "arguments" block = some []) →
          parseToolCall jsonParse extendedNames block = .failure "Missing arguments") ∧
       (∀ (sn tn argStr : List Char) (s : ServerRef) (m : String),
          tagContent "server_name" block = some sn → sn ≠ [] →
          resolveServer extendedNames (String.mk sn) = some s →
          tagContent "tool_name" block = some tn → tn ≠ [] →
          tagContent "arguments" block = some argStr → argStr ≠ [] →
          jsonParse (String.mk argStr) = .error m →
          parseToolCall jsonParse extendedNames block = .failure m)) := by
  have hemp : ∀ {l : List Char}, l ≠ [] → l.isEmpty = false := by
    intro l h
    cases l with
    | nil => exact absurd rfl h
    | cons a t => rfl
  constructor
  · intro responseText
    exact ⟨rfl, by simp [parseExtendedToolCalls]⟩
  · intro block
    refine ⟨?_, ?_, ?_, ?_, ?_⟩
    · rintro (hsn | hsn) <;> simp [parseToolCall, hsn, List.isEmpty]
    · intro sn hsn hne hres
      simp [parseToolCall, hsn, hemp hne, hres]
    · rintro sn s hsn hne hres (htn | htn) <;>
        simp [parseToolCall, hsn, hemp hne, hres, htn]
    · rintro sn tn s hsn hne hres htn htne (hargs | hargs) <;>
        simp [parseToolCall, hsn, hemp hne, hres, htn, hemp htne, hargs]
    · intro sn tn argStr s m hsn hne hres htn htne hargs hargne hjson
      simp [parseToolCall, hsn, hemp hne, hres, htn, hemp htne, hargs, hemp hargne, hjson]

/-- C9 witness: concrete malformed blocks — one missing its `server_name`,
one naming an unknown server, one with unparseable JSON arguments — each map
to the corresponding failure entry. -/
theorem parse_tool_calls_malformed_to_error_witness :
    parseToolCall (fun s => (Except.error ("Unexpected token in " ++ s) : Except String Nat))
        ["playwright"] "<tool_name>shot</tool_name>".toList =
      .failure "Missing server_name" ∧
    parseToolCall (fun s => (Except.error ("Unexpected token in " ++ s) : Except String Nat))
        ["playwright"]
        "<server_name>ghost</server_name><tool_name>x</tool_name><arguments>1</arguments>".toList =
      .failure ("Unknown or unavailable server: " ++ String.mk "ghost".toList) ∧
    parseToolCall (fun s => (Except.error ("Unexpected token in " ++ s) : Except String Nat))
        ["playwright"]
        "<server_name>git-mcp</server_name><tool_name>st</tool_name><arguments>oops</arguments>".toList =
      .failure ("Unexpected token in " ++ String.mk "oops".toList) := by
  refine ⟨?_, ?_, ?_⟩
  · exact ((parse_tool_calls_malformed_to_error _ _).2 _).1 (Or.inl (by decide))
  · exact ((parse_tool_calls_malformed_to_error _ _).2 _).2.1 "ghost".toList
      (by decide) (by decide) (by decide)
  · exact ((parse_tool_calls_malformed_to_error _ _).2 _).2.2.2.2 "git-mcp".toList
      "st".toList "oops".toList ServerRef.git ("Unexpected token in " ++ String.mk "oops".toList)
      (by decide) (by decide) (by decide) (by decide) (by decide) (by decide) (by decide) (by rfl)

end Deebo
